import Mathlib

/-!
Verification of the concurrency-demo-benchmarks model tool (src/src/main.rs).

Shallow embedding conventions:
* Rust `u64` / `usize` values are modelled as `Nat`; the only place where
  wrap-around matters (`max - 1` on a `u64` bucket key in `build_rps_graph`)
  is modelled explicitly.
* `Instant` timestamps and `f64` second/overhead values are modelled as `ℚ`
  (the claims under study concern counts, flags and integer index
  arithmetic, not float rounding).
* Fallible / panicking code paths return `Option`; `none` models a panic
  (out-of-bounds index, failed parse via `expect`, usize underflow).
-/

namespace ConcDemo

/-- The timeout constant from main.rs: `const TIMEOUT: u64 = 1_000;`. -/
def TIMEOUT : Nat := 1000

/-- Embedding of `struct TaskStats` (success flag, timestamps in seconds,
overhead in seconds). -/
structure TaskStats where
  success : Bool
  start_time : ℚ
  completion_time : ℚ
  overhead : ℚ
deriving DecidableEq

/-- Embedding of `struct Task` (admission timestamp and cost in ms). -/
structure WorkItem where
  start : ℚ
  cost : Nat
deriving DecidableEq

/-! ### Workload parsing (`ModelConfig::parse_latency_item` and the
`latency_distribution` field of `ModelConfig::from_cli`) -/

def starChar : Char := '*'

def commaChar : Char := ','

def plusChar : Char := '+'

/-- Rust's `str::parse::<u64>`: an optional leading sign, then at least one
digit, all digits (overflow is ignored: all inputs of interest are small). -/
def parseU64 (cs : List Char) : Option Nat :=
  let ds := if cs.head? = some plusChar then cs.tail else cs
  if ds.isEmpty then none
  else if ds.all (fun c => c.isDigit) then
    some (ds.foldl (fun n c => n * 10 + (c.toNat - 48)) 0)
  else none

/-- Rust's `str::split(sep)` on a character list (every separator occurrence
starts a new group; an empty input gives one empty group). -/
def splitOnChar (sep : Char) (cs : List Char) : List (List Char) :=
  cs.foldr
    (fun ch acc =>
      if ch = sep then [] :: acc
      else
        match acc with
        | [] => [[ch]]
        | g :: gs => (ch :: g) :: gs)
    [[]]

/-- Embedding of `ModelConfig::parse_latency_item`.  An item without `*`
parses as a single value; `value*count` first parses `count`, then parses
`value` once per repetition (so a count of 0 never parses `value`).
`none` models the `expect` panics. -/
def parse_latency_item (s : String) : Option (List Nat) :=
  let cs := s.toList
  if ¬ (cs.contains starChar) then
    (parseU64 cs).map (fun v => [v])
  else
    match splitOnChar starChar cs with
    | value :: countStr :: _ =>
      match parseU64 countStr with
      | some count => (List.range count).mapM (fun _ => parseU64 value)
      | none => none
    | _ => none

/-- Embedding of the `latency_distribution` construction in
`ModelConfig::from_cli`: split the option on commas, parse each item, and
flatten. -/
def latency_distribution_of (s : String) : Option (List Nat) :=
  ((splitOnChar commaChar s.toList).mapM
    (fun g => parse_latency_item (String.mk g))).map List.flatten

/-! ### Rate limiter configuration (the refill loop at the top of `main`) -/

/-- Embedding of the loop in `main`:
`while duration_ms > 1 && refill % 10 == 0 { duration_ms /= 10; refill /= 10; }`
returning the final `(duration_ms, refill)` pair. -/
def refillLoop (duration_ms refill : Nat) : Nat × Nat :=
  if h : 1 < duration_ms ∧ refill % 10 = 0 then
    refillLoop (duration_ms / 10) (refill / 10)
  else (duration_ms, refill)
termination_by duration_ms
decreasing_by exact Nat.div_lt_self (by omega) (by omega)

/-- The set of `(interval_ms)` values obtainable from the initial
`(1000 ms, r)` pair by repeated exact division by 10 (at most three times,
since the interval bottoms out at 1 ms) with the amount staying an exact
integer at every step. -/
def obtainableInterval (r d : Nat) : Prop :=
  ∃ k, k ≤ 3 ∧ d = 1000 / 10 ^ k ∧ r % 10 ^ k = 0

/-! ### Executors (`sync_execution` / `async_execution`) -/

/-- The `TaskStats` record built by a sync worker in `sync_execution`
(`success: val.cost < TIMEOUT`, overhead in seconds minus `cost / 1000`). -/
def syncTaskStats (startT : ℚ) (cost : Nat) (now : ℚ) : TaskStats :=
  { success := decide (cost < TIMEOUT)
    start_time := startT
    completion_time := now
    overhead := (now - startT) - (cost : ℚ) / 1000 }

/-- The `TaskStats` record built by a spawned unit in `async_execution`
(`success: cost < 1_000`). -/
def asyncTaskStats (startT : ℚ) (cost : Nat) (now : ℚ) : TaskStats :=
  { success := decide (cost < 1000)
    start_time := startT
    completion_time := now
    overhead := (now - startT) - (cost : ℚ) / 1000 }

/-- `crossbeam::channel::bounded(cap)` + `try_send(..).unwrap_or_default()`:
a send into a full buffer is silently dropped. -/
def trySend (cap : Nat) (buf : List TaskStats) (x : TaskStats) : List TaskStats :=
  if buf.length < cap then buf ++ [x] else buf

/-- The per-request cost lookup `latency_distribution[i % latency_distribution.len()]`
shared by both executors; `none` models the panic of `i % 0` on an empty
distribution. -/
def costLookup (dist : List Nat) (i : Nat) : Option Nat :=
  if h : dist.length = 0 then none
  else some (dist.get ⟨i % dist.length, Nat.mod_lt i (Nat.pos_of_ne_zero h)⟩)

/-- Embedding of `sync_execution`: the admission loop admits `nJobs`
requests (cost `dist[i % dist.len()]`, admission instant `startOf i`); each
is processed by a worker, which completes it at `nowOf i` and `try_send`s
its record into the stats channel of capacity `nJobs`.  The timestamps are
an arbitrary schedule parameter: the claims proved about this function do
not depend on them.  `none` models the `i % 0` panic on an empty
distribution. -/
def syncExecutionRecords (dist : List Nat) (nJobs : Nat) (startOf nowOf : Nat → ℚ) :
    Option (List TaskStats) :=
  if h : dist.length = 0 then none
  else
    some (((List.range nJobs).map (fun i =>
      syncTaskStats (startOf i)
        (dist.get ⟨i % dist.length, Nat.mod_lt i (Nat.pos_of_ne_zero h)⟩)
        (nowOf i))).foldl (trySend nJobs) [])

/-- Embedding of `async_execution`: one spawned unit per admitted request;
each unit awaits its cost and sends its record (an awaited `send` into the
capacity-`nJobs` tokio channel, never dropped); all units are awaited. -/
def asyncExecutionRecords (dist : List Nat) (nJobs : Nat) (startOf nowOf : Nat → ℚ) :
    Option (List TaskStats) :=
  if h : dist.length = 0 then none
  else
    some ((List.range nJobs).map (fun i =>
      asyncTaskStats (startOf i)
        (dist.get ⟨i % dist.length, Nat.mod_lt i (Nat.pos_of_ne_zero h)⟩)
        (nowOf i)))

/-- A constant schedule used to instantiate witnesses. -/
def zeroSched : Nat → ℚ := fun _ => 0

/-! ### Overhead percentile curve (`build_latency_histogram`) -/

/-- The index computed by `build_latency_histogram` for percentile `p`
(hundredths of a percent) over `n` sorted records:
`((p as f64 / 10000. * n as f64) as i32 - 1).max(0) as usize`,
with the float arithmetic idealized as exact (the `as i32` cast of the
non-negative product truncates, i.e. takes the floor). -/
def percentileIndex (p n : Nat) : Nat :=
  (max ((p * n : ℤ) / 10000 - 1) 0).toNat

/-- The percentile lookup `&latencies[...]` on the overhead-sorted list;
`none` models an out-of-bounds panic. -/
def percentileValue (sorted : List ℚ) (p : Nat) : Option ℚ :=
  sorted.get? (percentileIndex p sorted.length)

/-! ### Latency timeline (`build_latency_timeline`) -/

/-- `usize` subtraction: `none` models the underflow panic (debug) /
wrapped huge index (release, leading to an out-of-bounds panic at the
subsequent array access). -/
def usizeSub (a b : Nat) : Option Nat :=
  if b ≤ a then some (a - b) else none

/-- Closing a one-second window in `build_latency_timeline`: sort the
batch and read p50/p90/p99 at `size/2 - 1`, `size*9/10 - 1`,
`size*99/100 - 1` (each scaled by 1000 into ms). -/
def closeWindow (batch : List ℚ) : Option (ℚ × ℚ × ℚ) :=
  let sorted := batch.insertionSort (fun a b => a ≤ b)
  let n := sorted.length
  match usizeSub (n / 2) 1, usizeSub (n * 9 / 10) 1, usizeSub (n * 99 / 100) 1 with
  | some i50, some i90, some i99 =>
    match sorted.get? i50, sorted.get? i90, sorted.get? i99 with
    | some a, some b, some c => some (a * 1000, b * 1000, c * 1000)
    | _, _, _ => none
  | _, _, _ => none

/-- The windowing loop of `build_latency_timeline` over the enumerated,
start-time-sorted records: a window closes when the current record starts
at least 1 s after the window opened, or at the last record; on close the
current record is dropped and (faithfully to the source) the batch is not
cleared.  Timestamps arrive sorted, so `duration_since` is plain
subtraction. -/
def timelineLoop (len : Nat) :
    List (Nat × TaskStats) → ℚ → List ℚ → List (ℚ × ℚ × ℚ) →
    Option (List (ℚ × ℚ × ℚ))
  | [], _, _, acc => some acc.reverse
  | (i, task) :: rest, wstart, batch, acc =>
    if task.start_time - wstart ≥ 1 ∨ i = len - 1 then
      match closeWindow batch with
      | none => none
      | some row => timelineLoop len rest task.start_time batch (row :: acc)
    else
      timelineLoop len rest wstart (batch ++ [task.overhead]) acc

/-- Embedding of `build_latency_timeline`: sort by `start_time`, then run
the windowing loop seeded with `latencies[0].start_time` (`none` models
the out-of-bounds panic of `latencies[0]` on an empty input). -/
def build_latency_timeline (latencies : List TaskStats) :
    Option (List (ℚ × ℚ × ℚ)) :=
  let sorted := latencies.insertionSort (fun a b => a.start_time ≤ b.start_time)
  match sorted with
  | [] => none
  | l0 :: _ => timelineLoop sorted.length sorted.enum l0.start_time [] []

/-! ### RPS summary (`build_rps_graph`) -/

/-- The loop lower bound in `build_rps_graph`:
`let start = 1 + min + 1;`. -/
def rpsStart (mn : Nat) : Nat := 1 + mn + 1

/-- The loop upper bound (exclusive) in `build_rps_graph`:
`let end = max - 1;` in `u64` arithmetic (wrapping when `max = 0`). -/
def rpsEnd (mx : Nat) : Nat := if mx = 0 then 2 ^ 64 - 1 else mx - 1

/-- The bucket keys the rate/stddev summary of `build_rps_graph` iterates
over: `for i in start..end`.  `none` models the `expect` panic when the
bucket map is empty. -/
def rpsSummaryBuckets (keys : List Nat) : Option (List Nat) :=
  match keys.min?, keys.max? with
  | some mn, some mx => some (List.range' (rpsStart mn) (rpsEnd mx - rpsStart mn))
  | _, _ => none

/-! ### Bounded worker pool as a transition system (`sync_execution`) -/

/-- A state of the sync executor: the pending bounded queue, the fixed
worker slots (`some t` = the worker is blocked processing `t`), the emitted
records, and a counter of requests dequeued so far. -/
structure SyncPoolState where
  queue : List WorkItem
  workers : List (Option WorkItem)
  records : List TaskStats
  dequeued : Nat

/-- Initial state of a run with `k` worker threads: empty queue, `k` idle
workers, no records. -/
def initPool (k : Nat) : SyncPoolState :=
  { queue := [], workers := List.replicate k none, records := [], dequeued := 0 }

/-- The events of `sync_execution`: the admission loop pushes a request
onto the queue; an idle worker pops the queue head and blocks on it; a
busy worker finishes, emitting the record at some completion instant. -/
inductive SyncPoolStep : SyncPoolState → SyncPoolState → Prop
  | enqueue (s : SyncPoolState) (t : WorkItem) :
      SyncPoolStep s ⟨s.queue ++ [t], s.workers, s.records, s.dequeued⟩
  | start (s : SyncPoolState) (i : Nat) (t : WorkItem) (rest : List WorkItem)
      (hq : s.queue = t :: rest) (hi : s.workers.get? i = some none) :
      SyncPoolStep s ⟨rest, s.workers.set i (some t), s.records, s.dequeued + 1⟩
  | finish (s : SyncPoolState) (i : Nat) (t : WorkItem) (now : ℚ)
      (hi : s.workers.get? i = some (some t)) :
      SyncPoolStep s ⟨s.queue, s.workers.set i none,
        s.records ++ [syncTaskStats t.start t.cost now], s.dequeued⟩

/-- Reachability of a pool state from the initial state with `k` workers. -/
def SyncReachable (k : Nat) (s : SyncPoolState) : Prop :=
  Relation.ReflTransGen SyncPoolStep (initPool k) s

/-- The number of requests currently being processed: dequeued by a worker
but not yet recorded, i.e. the number of busy worker slots. -/
def inProcessing (s : SyncPoolState) : Nat :=
  s.workers.countP (fun o => o.isSome)

/-! ### Concrete input strings used by the parsing claims -/

def item300 : String := "300"

def item300x3 : String := "300*3"

def listItems : String := "200,200,200,500"

def oneS : String := "1s"

def item300x0 : String := "300*0"

def allZeroCounts : String := "300*0,400*0"

/-! ## Theorems -/

/-- Folding `try_send` into a bounded buffer appends everything as long as
the total never exceeds the capacity. -/
theorem trySend_foldl (cap : Nat) (xs : List TaskStats) :
    ∀ buf : List TaskStats, buf.length + xs.length ≤ cap →
      xs.foldl (trySend cap) buf = buf ++ xs := by
  induction xs with
  | nil => intro buf _; simp
  | cons x xs ih =>
    intro buf h
    simp only [List.foldl_cons]
    rw [trySend, if_pos (by simp at h ⊢; omega)]
    rw [ih (buf ++ [x]) (by simp at h ⊢; omega)]
    simp

/-- Claim C1: for every run configuration (any non-empty cost distribution,
any job count, any timing schedule), the sync executor produces exactly
`nJobs` completion records once its workers are joined, and the async
executor produces exactly `nJobs` records once all spawned units are
awaited; both equal the number of requests admitted (`nJobs`). -/
theorem c1_completion_record_counts (dist : List Nat) (nJobs : Nat)
    (startS nowS startA nowA : Nat → ℚ) (h : dist ≠ []) :
    (syncExecutionRecords dist nJobs startS nowS).map List.length = some nJobs
    ∧ (asyncExecutionRecords dist nJobs startA nowA).map List.length = some nJobs := by
  have hne : dist.length ≠ 0 := by simpa [List.length_eq_zero] using h
  constructor
  · unfold syncExecutionRecords
    rw [dif_neg hne, trySend_foldl nJobs _ [] (by simp)]
    simp
  · unfold asyncExecutionRecords
    rw [dif_neg hne]
    simp

theorem c1_witness :
    (syncExecutionRecords [300] 2 zeroSched zeroSched).map List.length = some 2
    ∧ (asyncExecutionRecords [300] 2 zeroSched zeroSched).map List.length = some 2 :=
  c1_completion_record_counts [300] 2 zeroSched zeroSched zeroSched zeroSched (by decide)

/-- Splitting a record list by the success flag covers it exactly. -/
theorem countP_success_split (l : List TaskStats) :
    l.countP TaskStats.success + l.countP (fun r => ! r.success) = l.length := by
  induction l with
  | nil => rfl
  | cons x xs ih =>
    simp only [List.countP_cons, List.length_cons]
    cases hx : x.success <;> simp [hx] <;> omega

/-- Claim C2: in both executors, every emitted record's `success` flag is
`cost < 1000 ms` for that request's own cost (`dist[i % dist.len()]`), a
pure function of the cost that does not depend on the timing schedule
(hence not on overhead or contention), and the successful plus failed
record counts add up to `nJobs`. -/
theorem c2_success_pure_function (dist : List Nat) (nJobs : Nat)
    (startS nowS startA nowA : Nat → ℚ) (h : dist ≠ [])
    (rs ra : List TaskStats)
    (hrs : syncExecutionRecords dist nJobs startS nowS = some rs)
    (hra : asyncExecutionRecords dist nJobs startA nowA = some ra) :
    rs.map TaskStats.success
      = (List.range nJobs).map (fun i => decide (dist.getD (i % dist.length) 0 < 1000))
    ∧ ra.map TaskStats.success
      = (List.range nJobs).map (fun i => decide (dist.getD (i % dist.length) 0 < 1000))
    ∧ rs.countP TaskStats.success + rs.countP (fun r => ! r.success) = nJobs
    ∧ ra.countP TaskStats.success + ra.countP (fun r => ! r.success) = nJobs := by
  have hne : dist.length ≠ 0 := by simpa [List.length_eq_zero] using h
  unfold syncExecutionRecords at hrs
  unfold asyncExecutionRecords at hra
  rw [dif_neg hne, trySend_foldl nJobs _ [] (by simp), List.nil_append,
    Option.some.injEq] at hrs
  rw [dif_neg hne, Option.some.injEq] at hra
  subst hrs hra
  have hmapS : ((List.range nJobs).map (fun i =>
      syncTaskStats (startS i)
        (dist.get ⟨i % dist.length, Nat.mod_lt i (Nat.pos_of_ne_zero hne)⟩)
        (nowS i))).map TaskStats.success
      = (List.range nJobs).map (fun i => decide (dist.getD (i % dist.length) 0 < 1000)) := by
    rw [List.map_map]
    apply List.map_congr_left
    intro i _
    simp [syncTaskStats, TIMEOUT,
      List.getElem?_eq_getElem (Nat.mod_lt i (Nat.pos_of_ne_zero hne))]
  have hmapA : ((List.range nJobs).map (fun i =>
      asyncTaskStats (startA i)
        (dist.get ⟨i % dist.length, Nat.mod_lt i (Nat.pos_of_ne_zero hne)⟩)
        (nowA i))).map TaskStats.success
      = (List.range nJobs).map (fun i => decide (dist.getD (i % dist.length) 0 < 1000)) := by
    rw [List.map_map]
    apply List.map_congr_left
    intro i _
    simp [asyncTaskStats,
      List.getElem?_eq_getElem (Nat.mod_lt i (Nat.pos_of_ne_zero hne))]
  refine ⟨hmapS, hmapA, ?_, ?_⟩
  · rw [countP_success_split]; simp
  · rw [countP_success_split]; simp

theorem c2_witness :
    [syncTaskStats 0 300 0, syncTaskStats 0 1500 0, syncTaskStats 0 300 0].map
        TaskStats.success
      = (List.range 3).map (fun i => decide ([300, 1500].getD (i % 2) 0 < 1000))
    ∧ [asyncTaskStats 0 300 0, asyncTaskStats 0 1500 0, asyncTaskStats 0 300 0].map
        TaskStats.success
      = (List.range 3).map (fun i => decide ([300, 1500].getD (i % 2) 0 < 1000))
    ∧ [syncTaskStats 0 300 0, syncTaskStats 0 1500 0, syncTaskStats 0 300 0].countP
        TaskStats.success
      + [syncTaskStats 0 300 0, syncTaskStats 0 1500 0, syncTaskStats 0 300 0].countP
          (fun r => ! r.success) = 3
    ∧ [asyncTaskStats 0 300 0, asyncTaskStats 0 1500 0, asyncTaskStats 0 300 0].countP
        TaskStats.success
      + [asyncTaskStats 0 300 0, asyncTaskStats 0 1500 0, asyncTaskStats 0 300 0].countP
          (fun r => ! r.success) = 3 :=
  c2_success_pure_function [300, 1500] 3 zeroSched zeroSched zeroSched zeroSched
    (by decide) _ _ rfl rfl

/-- Claim C8 counterexample: a human-readable duration string such as
`"1s"` does not parse at all (the parser only accepts bare integers and
`value*count`), so it does not yield `[1000]` and there is no
duration-string fallback. -/
theorem c8_counterexample :
    parse_latency_item oneS = none ∧ parse_latency_item oneS ≠ some [1000] := by
  decide

/-- Claim C8 (amended): `parse_latency_item` maps `"300"` to `[300]` and
`"300*3"` to `[300, 300, 300]`; the comma-separated list
`"200,200,200,500"` expands to `[200, 200, 200, 500]`; duration items
accept only bare integer milliseconds, and a human-readable duration
string such as `"1s"` fails fatally (there is no duration-string parse or
fallback). -/
theorem c8_latency_parsing :
    parse_latency_item item300 = some [300]
    ∧ parse_latency_item item300x3 = some [300, 300, 300]
    ∧ latency_distribution_of listItems = some [200, 200, 200, 500]
    ∧ parse_latency_item oneS = none := by
  decide

/-- Claim C10: an item of the form `value*0` yields zero costs, so a
latency option whose items all have count 0 expands to an empty cost
distribution; the per-request lookup `dist[i % dist.len()]` is in-bounds
for every request index whenever the distribution is non-empty, and has no
defined value on the empty distribution (both executors panic there). -/
theorem c10_empty_distribution (dist : List Nat) (i j n : Nat)
    (startT nowT : Nat → ℚ) (h : dist ≠ []) :
    parse_latency_item item300x0 = some []
    ∧ latency_distribution_of allZeroCounts = some []
    ∧ (costLookup dist i).isSome = true
    ∧ costLookup [] j = none
    ∧ syncExecutionRecords [] n startT nowT = none
    ∧ asyncExecutionRecords [] n startT nowT = none := by
  have hne : dist.length ≠ 0 := by simpa [List.length_eq_zero] using h
  refine ⟨by decide, by decide, ?_, rfl, rfl, rfl⟩
  unfold costLookup
  rw [dif_neg hne]
  rfl

theorem c10_witness :
    parse_latency_item item300x0 = some []
    ∧ latency_distribution_of allZeroCounts = some []
    ∧ (costLookup [200] 5).isSome = true
    ∧ costLookup [] 7 = none
    ∧ syncExecutionRecords [] 4 zeroSched zeroSched = none
    ∧ asyncExecutionRecords [] 4 zeroSched zeroSched = none :=
  c10_empty_distribution [200] 5 7 4 zeroSched zeroSched (by decide)

/-- The idealized float product `p / 10000 * n` floors to the integer
division. -/
theorem floor_percentile (p n : Nat) :
    ⌊(p : ℚ) / 10000 * n⌋ = (p * n : ℤ) / 10000 := by
  have h : (p : ℚ) / 10000 * n = ((p * n : ℤ) : ℚ) / ((10000 : ℕ) : ℚ) := by
    push_cast
    ring
  rw [h, Rat.floor_intCast_div_natCast]
  norm_num

/-- Claim C3: for a sorted array of `n ≥ 1` overhead values and any
percentile `p` in `0..10000` (hundredths of a percent), the curve reports
the element at index `max(0, floor(p/10000 * n) - 1)`; that index is
in-range for every such `p`, and in particular for `p = 0` and
`p = 10000`, so the lookup always succeeds. -/
theorem c3_percentile_indexing (p n : Nat) (sorted : List ℚ)
    (hp : p ≤ 10000) (hn : 1 ≤ n) (hs : sorted.length = n) :
    percentileIndex p n = (max 0 (⌊(p : ℚ) / 10000 * n⌋ - 1)).toNat
    ∧ percentileIndex p n < n
    ∧ percentileIndex 0 n < n
    ∧ percentileIndex 10000 n < n
    ∧ (percentileValue sorted p).isSome = true := by
  have hdiv : (p * n : ℤ) / 10000 ≤ n := by
    have h1 : (p * n : ℤ) ≤ 10000 * n := by
      have hp' : (p : ℤ) ≤ 10000 := by exact_mod_cast hp
      exact mul_le_mul_of_nonneg_right hp' (by positivity)
    calc (p * n : ℤ) / 10000 ≤ (10000 * n : ℤ) / 10000 :=
          Int.ediv_le_ediv (by norm_num) h1
      _ = n := Int.mul_ediv_cancel_left _ (by norm_num)
  have hlt : percentileIndex p n < n := by
    unfold percentileIndex
    omega
  refine ⟨?_, hlt, ?_, ?_, ?_⟩
  · unfold percentileIndex
    rw [floor_percentile, max_comm]
  · unfold percentileIndex
    omega
  · unfold percentileIndex
    have : ((10000 * n : ℕ) : ℤ) / 10000 = n := by
      push_cast
      exact Int.mul_ediv_cancel_left _ (by norm_num)
    omega
  · unfold percentileValue
    rw [hs, List.get?_eq_get (show percentileIndex p n < sorted.length by omega)]
    rfl

theorem c3_witness :
    9000 ≤ 10000 ∧ 1 ≤ 4 ∧ ([1, 2, 3, 4] : List ℚ).length = 4
    ∧ percentileIndex 9000 4 = (max 0 (⌊(9000 : ℚ) / 10000 * 4⌋ - 1)).toNat
    ∧ percentileIndex 9000 4 < 4
    ∧ percentileIndex 0 4 < 4
    ∧ percentileIndex 10000 4 < 4
    ∧ (percentileValue [1, 2, 3, 4] 9000).isSome = true := by
  have h := c3_percentile_indexing 9000 4 [1, 2, 3, 4] (by decide) (by decide) rfl
  exact ⟨by decide, by decide, rfl, h.1, h.2.1, h.2.2.1, h.2.2.2.1, h.2.2.2.2⟩

/-- One unfolding of the refill loop. -/
theorem refillLoop_unfold (d r : Nat) :
    refillLoop d r =
      if 1 < d ∧ r % 10 = 0 then refillLoop (d / 10) (r / 10) else (d, r) := by
  rw [refillLoop]
  exact dif_eq_if _ _ _

/-- Loop invariant of the refill loop on power-of-ten intervals:
`refill * 1000 = r * interval` is preserved down to the final pair. -/
theorem refillLoop_pow_invariant (k : Nat) :
    ∀ refill r : Nat, refill * 1000 = r * 10 ^ k →
      (refillLoop (10 ^ k) refill).2 * 1000 = r * (refillLoop (10 ^ k) refill).1 := by
  induction k with
  | zero =>
    intro refill r h
    rw [refillLoop_unfold, if_neg (by norm_num)]
    simpa using h
  | succ k ih =>
    intro refill r h
    rw [refillLoop_unfold]
    by_cases hr : refill % 10 = 0
    · rw [if_pos ⟨lt_of_lt_of_le (by omega) (Nat.le_self_pow (by omega) 10), hr⟩]
      have hd : 10 ^ (k + 1) / 10 = 10 ^ k := by
        rw [pow_succ]
        exact Nat.mul_div_cancel _ (by omega)
      rw [hd]
      apply ih
      have h' : refill * 1000 = r * 10 ^ k * 10 := by
        rw [h, pow_succ, mul_assoc]
      generalize hq : r * 10 ^ k = q at h' ⊢
      omega
    · rw [if_neg (by tauto)]
      simpa using h

/-- Claim C5: for every positive target rate `r`, the refill pair
`(interval_ms, amount)` computed by the division loop satisfies
`amount * 1000 = r * interval_ms` exactly, so the configured long-run
admission rate is preserved exactly. -/
theorem c5_rate_preserved (r : Nat) (_hr : 0 < r) :
    (refillLoop 1000 r).2 * 1000 = r * (refillLoop 1000 r).1 := by
  have h := refillLoop_pow_invariant 3 r r (by norm_num)
  norm_num at h
  exact h

theorem c5_witness :
    0 < 300 ∧ (refillLoop 1000 300).2 * 1000 = 300 * (refillLoop 1000 300).1 :=
  ⟨by decide, c5_rate_preserved 300 (by decide)⟩

/-- Closed form of the refill loop started from the initial
`(1000 ms, r)` pair. -/
theorem refillLoop_1000_eq (r : Nat) :
    refillLoop 1000 r =
      if r % 1000 = 0 then (1, r / 1000)
      else if r % 100 = 0 then (10, r / 100)
      else if r % 10 = 0 then (100, r / 10)
      else (1000, r) := by
  rw [refillLoop_unfold]
  by_cases h1 : r % 10 = 0
  · rw [if_pos ⟨by omega, h1⟩]
    norm_num
    rw [refillLoop_unfold]
    by_cases h2 : r / 10 % 10 = 0
    · rw [if_pos ⟨by omega, h2⟩]
      norm_num [Nat.div_div_eq_div_mul]
      rw [refillLoop_unfold]
      by_cases h3 : r / 100 % 10 = 0
      · rw [if_pos ⟨by omega, h3⟩]
        norm_num [Nat.div_div_eq_div_mul]
        rw [refillLoop_unfold, if_neg (by omega), if_pos (by omega)]
      · rw [if_neg (by omega), if_neg (by omega), if_pos (by omega)]
    · rw [if_neg (by omega), if_neg (by omega), if_neg (by omega), if_pos h1]
  · rw [if_neg (by omega), if_neg (by omega), if_neg (by omega), if_neg h1]

/-- Claim C6 counterexample: for target rate `r = 10` the loop chooses
interval 100 ms, yet interval 1000 ms (with integer amount 10) is also
obtainable from the initial pair, so the chosen interval is NOT the
largest (coarsest) obtainable power-of-ten interval. -/
theorem c6_counterexample :
    (refillLoop 1000 10).1 = 100 ∧ obtainableInterval 10 1000 ∧ (100 : Nat) < 1000 := by
  refine ⟨?_, ⟨0, by omega, by norm_num, by norm_num⟩, by norm_num⟩
  rw [refillLoop_1000_eq]
  norm_num

/-- Claim C6 (amended): for every positive target rate `r`, the refill
interval chosen by the loop is the FINEST one: the smallest power-of-ten
`interval_ms ≥ 1` obtainable by repeatedly dividing the initial
`(1000 ms, r)` pair by 10 while the token amount stays an exact integer
(the loop divides as long as the amount is divisible by 10). -/
theorem c6_finest_interval (r : Nat) (_hr : 0 < r) :
    obtainableInterval r (refillLoop 1000 r).1
    ∧ ∀ d, obtainableInterval r d → (refillLoop 1000 r).1 ≤ d := by
  rw [refillLoop_1000_eq]
  by_cases h3 : r % 1000 = 0
  · rw [if_pos h3]
    refine ⟨⟨3, by omega, by norm_num, by norm_num [h3]⟩, ?_⟩
    rintro d ⟨k, hk, hdk, hrk⟩
    subst hdk
    interval_cases k <;> norm_num
  · by_cases h2 : r % 100 = 0
    · rw [if_neg h3, if_pos h2]
      refine ⟨⟨2, by omega, by norm_num, by norm_num [h2]⟩, ?_⟩
      rintro d ⟨k, hk, hdk, hrk⟩
      subst hdk
      interval_cases k
      · norm_num
      · norm_num
      · norm_num
      · exact absurd (by norm_num at hrk; exact hrk) h3
    · by_cases h1 : r % 10 = 0
      · rw [if_neg h3, if_neg h2, if_pos h1]
        refine ⟨⟨1, by omega, by norm_num, by norm_num [h1]⟩, ?_⟩
        rintro d ⟨k, hk, hdk, hrk⟩
        subst hdk
        interval_cases k
        · norm_num
        · norm_num
        · exact absurd (by norm_num at hrk; exact hrk) h2
        · exact absurd (by norm_num at hrk; exact hrk) h3
      · rw [if_neg h3, if_neg h2, if_neg h1]
        refine ⟨⟨0, by omega, by norm_num, by simp [Nat.mod_one]⟩, ?_⟩
        rintro d ⟨k, hk, hdk, hrk⟩
        subst hdk
        interval_cases k
        · norm_num
        · exact absurd (by norm_num at hrk; exact hrk) h1
        · exact absurd (by norm_num at hrk; exact (by omega : r % 10 = 0)) h1
        · exact absurd (by norm_num at hrk; exact (by omega : r % 10 = 0)) h1

theorem c6_witness :
    obtainableInterval 10 (refillLoop 1000 10).1 ∧ (refillLoop 1000 10).1 ≤ 1000 :=
  ⟨(c6_finest_interval 10 (by decide)).1,
   (c6_finest_interval 10 (by decide)).2 1000 ⟨0, by omega, by norm_num, by norm_num⟩⟩

/-- Claim C4 evaluated at the failing inputs: the claim (and the spec's
error-handling section) requires a clean "insufficient data" failure with
no out-of-range access, but the code's timeline aggregation evaluates
`batch_size / 2 - 1` (and the p90/p99 analogues) on an empty or
single-element window — a `usize` underflow producing an out-of-range
access (modelled as `none` via `usizeSub`) — and on a run with no
successful records at all it indexes `latencies[0]` out of bounds. -/
theorem c4_timeline_out_of_range :
    build_latency_timeline [] = none
    ∧ build_latency_timeline [⟨true, 0, 0, 0⟩] = none
    ∧ closeWindow [] = none
    ∧ closeWindow [(5 : ℚ)] = none := by
  refine ⟨rfl, ?_, rfl, rfl⟩
  norm_num [build_latency_timeline, timelineLoop, closeWindow, usizeSub,
    List.insertionSort, List.enum, List.enumFrom]

/-- Claim C7 evaluated at a failing input: with occupied whole-second
buckets `{0, 1, 2, 3, 4}` the summary of `build_rps_graph` iterates over
`start = 1 + min + 1 = 2` up to (exclusively) `end = max - 1 = 3`, i.e.
only bucket `2` — it excludes TWO buckets at each end, not just the first
and the last bucket (which would be buckets `1, 2, 3`, the code's own
comment notwithstanding). -/
theorem c7_rps_bucket_exclusion :
    rpsSummaryBuckets [0, 1, 2, 3, 4] = some [2]
    ∧ List.range' (0 + 1) (4 - (0 + 1)) = [1, 2, 3]
    ∧ ([2] : List Nat) ≠ [1, 2, 3] := by
  refine ⟨by decide, by decide, by decide⟩

/-- Every reachable pool state keeps exactly `k` worker slots. -/
theorem reachable_workers_length (k : Nat) (s : SyncPoolState)
    (h : SyncReachable k s) : s.workers.length = k := by
  induction h with
  | refl => simp [initPool]
  | tail _ step ih =>
    cases step with
    | enqueue t => exact ih
    | start i t rest hq hi => simpa [List.length_set] using ih
    | finish i t now hi => simpa [List.length_set] using ih

/-- Occupying an idle worker slot raises the busy count by one. -/
theorem countP_isSome_set_some (l : List (Option WorkItem)) (i : Nat) (t : WorkItem)
    (hlt : i < l.length) (hnone : l[i] = none) :
    (l.set i (some t)).countP (fun o => o.isSome)
      = l.countP (fun o => o.isSome) + 1 := by
  rw [List.countP_set _ _ _ _ hlt, hnone]
  simp

/-- Releasing a busy worker slot lowers the busy count by one. -/
theorem countP_isSome_set_none (l : List (Option WorkItem)) (i : Nat) (t : WorkItem)
    (hlt : i < l.length) (hsome : l[i] = some t) :
    (l.set i none).countP (fun o => o.isSome) + 1
      = l.countP (fun o => o.isSome) := by
  have hpos : 0 < l.countP (fun o => o.isSome) := by
    rw [List.countP_pos_iff]
    exact ⟨some t, by rw [← hsome]; exact List.getElem_mem hlt, rfl⟩
  rw [List.countP_set _ _ _ _ hlt, hsome]
  simp
  omega

/-- Every reachable pool state balances its dequeue counter: requests
dequeued = requests being processed + requests recorded. -/
theorem reachable_dequeued_eq (k : Nat) (s : SyncPoolState)
    (h : SyncReachable k s) :
    s.dequeued = inProcessing s + s.records.length := by
  induction h with
  | refl => simp [initPool, inProcessing, List.countP_replicate]
  | tail _ step ih =>
    cases step with
    | enqueue t => simpa [inProcessing] using ih
    | start i t rest hq hi =>
      rw [List.get?_eq_getElem?] at hi
      obtain ⟨hlt, hget⟩ := List.getElem?_eq_some.mp hi
      simp only [inProcessing] at ih ⊢
      rw [countP_isSome_set_some _ i t hlt hget]
      omega
    | finish i t now hi =>
      rw [List.get?_eq_getElem?] at hi
      obtain ⟨hlt, hget⟩ := List.getElem?_eq_some.mp hi
      simp only [inProcessing] at ih ⊢
      rw [← countP_isSome_set_none _ i t hlt hget] at ih
      simp only [List.length_append, List.length_cons, List.length_nil]
      omega

/-- Claim C9: for every run of the sync executor with `k` worker threads
and any arrival pattern (any reachable interleaving of admissions, worker
dequeues and completions), the number of requests dequeued but not yet
recorded equals the number of busy worker slots and never exceeds `k`. -/
theorem c9_bounded_concurrency (k : Nat) (s : SyncPoolState)
    (h : SyncReachable k s) :
    s.dequeued = inProcessing s + s.records.length ∧ inProcessing s ≤ k := by
  refine ⟨reachable_dequeued_eq k s h, ?_⟩
  calc inProcessing s ≤ s.workers.length := List.countP_le_length _
    _ = k := reachable_workers_length k s h

theorem c9_witness :
    (⟨[], [some ⟨0, 500⟩, none], [], 1⟩ : SyncPoolState).dequeued
      = inProcessing ⟨[], [some ⟨0, 500⟩, none], [], 1⟩
        + (⟨[], [some ⟨0, 500⟩, none], [], 1⟩ : SyncPoolState).records.length
    ∧ inProcessing ⟨[], [some ⟨0, 500⟩, none], [], 1⟩ ≤ 2 :=
  c9_bounded_concurrency 2 ⟨[], [some ⟨0, 500⟩, none], [], 1⟩
    (Relation.ReflTransGen.tail
      (Relation.ReflTransGen.tail Relation.ReflTransGen.refl
        (SyncPoolStep.enqueue (initPool 2) ⟨0, 500⟩))
      (SyncPoolStep.start ⟨[⟨0, 500⟩], [none, none], [], 0⟩ 0 ⟨0, 500⟩ [] rfl rfl))

end ConcDemo
